import Mathlib

/-!
Verification development for the OData-API repository (`src/main.py`).

The query-option interpreter (`parse_filter`, `parse_select`, `parse_orderby`),
the pagination/count stage of the list endpoints, the relationship expander of
`get_customer_by_id`, and the CRUD handlers (`create_customer`,
`update_customer`, `delete_customer`) are embedded shallowly.

Conventions of the embedding:
* Python strings are `List Char` (`Str`); `str.lower` is ASCII lowercasing as
  in all inputs of interest.
* A Python exception that escapes a modelled function is `none` / an error
  value; a caught exception is modelled by the handler's result.
* Record dictionaries (`item.dict()` views) are ordered association lists.
* Python floats appearing in the repository are all integral (`50000.0`), so
  a float value is carried as its integer part (`Scalar.sFloatInt`).
-/

/-- Python strings, modelled as lists of characters. -/
abbrev Str := List Char

/-- ASCII lowercasing, modelling `str.lower` on the ASCII data of this API. -/
def toLowerStr (s : Str) : Str := s.map Char.toLower

/-- The whitespace characters stripped by Python's `str.strip()` and matched
by the regex class `\s`. -/
def isPySpace (c : Char) : Bool :=
  c = ' ' || c = '\t' || c = '\n' || c = '\r' || c = '\x0b' || c = '\x0c'

/-- Quote characters: the argument `"'\""` of the second `strip` in
`parse_filter`. -/
def isQuoteChar (c : Char) : Bool := c = '\'' || c = '"'

/-- Strip all leading and trailing characters satisfying `p`
(Python `str.strip(chars)` semantics). -/
def stripWith (p : Char → Bool) (s : Str) : Str :=
  ((s.dropWhile p).reverse.dropWhile p).reverse

/-- Python `str.strip()` (whitespace). -/
def pyStrip (s : Str) : Str := stripWith isPySpace s

/-- Python `str.strip("'\"")`. -/
def stripQuotes (s : Str) : Str := stripWith isQuoteChar s

/-- Index of the first occurrence of `sub` in `s` (Python `str.find` /
the `in` operator / the split position of `str.split(sub)`). -/
def firstOcc (sub s : Str) : Option Nat :=
  (List.range (s.length + 1)).find? (fun i => sub.isPrefixOf (s.drop i))

/-- Python's substring test `sub in s`. -/
def containsSubstr (s sub : Str) : Bool := (firstOcc sub s).isSome

/-- Fuel-driven worker for `splitOnSub`; fuel `s.length` always suffices
because each step removes at least one character when `sub ≠ []`. -/
def splitGo (sub : Str) : Nat → Str → List Str
  | 0, s => [s]
  | Nat.succ fuel, s =>
    match firstOcc sub s with
    | none => [s]
    | some i => s.take i :: splitGo sub fuel (s.drop (i + sub.length))

/-- Python `str.split(sub)`: split on every non-overlapping occurrence of
`sub`, left to right, keeping empty pieces. -/
def splitOnSub (sub s : Str) : List Str :=
  if sub = [] then [s] else splitGo sub s.length s

/-- Split on every character satisfying `p`, keeping empty pieces
(the shape underlying Python's `str.split(sep)` and `str.split()`). -/
def splitOnPred (p : Char → Bool) (s : Str) : List Str :=
  s.foldr
    (fun c acc =>
      match acc with
      | [] => if p c then [[], []] else [[c]]
      | h :: t => if p c then [] :: h :: t else (c :: h) :: t)
    [[]]

/-- Python `str.split(',')` as used by `parse_select` and the inline select of
`get_customer_by_id`. -/
def splitOnChar (c : Char) (s : Str) : List Str := splitOnPred (fun x => x = c) s

/-- Python `str.split()` (no argument): split on whitespace runs, dropping
empty pieces; used by `parse_orderby`. -/
def pySplitWs (s : Str) : List Str :=
  (splitOnPred isPySpace s).filter (fun t => !t.isEmpty)

/-- Scalar field values of the two record types. A `sFloatInt n` is the float
`n.0` (every float in the repository's data is integral); a `sDate y m d` is a
`datetime(y, m, d)` at midnight, as all dates in the repository are. -/
inductive Scalar where
  | sInt (n : Int)
  | sStr (s : Str)
  | sFloatInt (n : Int)
  | sDate (y m d : Nat)
  | sStrList (l : List Str)
deriving DecidableEq

/-- A flat dictionary: the `.dict()` view of an `Order` (scalar values only). -/
abbrev FlatRec := List (Str × Scalar)

/-- A value stored in a result mapping: either a scalar or — only for the
`Orders` key attached by the expander — a list of flat order dictionaries. -/
inductive Value where
  | scal (v : Scalar)
  | vRecs (l : List FlatRec)
deriving DecidableEq

/-- A record dictionary: ordered association list, as produced by pydantic's
`.dict()` and by Python dict displays. -/
abbrev Rec := List (Str × Value)

/-- Dictionary lookup: `d[k]` / `d.get(k)`. -/
def getField (r : Rec) (k : Str) : Option Value :=
  (r.find? (fun p => p.1 = k)).map (fun p => p.2)

/-- Python's `k in d`. -/
def hasField (r : Rec) (k : Str) : Bool := (getField r k).isSome

/-- Python dict insertion `d[k] = v`: update in place if the key exists,
else append. -/
def dictInsert : Rec → Str → Value → Rec
  | [], k, v => [(k, v)]
  | (k', v') :: rest, k, v =>
    if k' = k then (k', v) :: rest else (k', v') :: dictInsert rest k v

example : splitOnSub (" eq ".toList) ("a eq b eq c".toList) =
    ["a".toList, "b".toList, "c".toList] := by decide

example : containsSubstr ("Status eq 'Active'".toList) (" eq ".toList) = true := by decide

example : pySplitWs ("CreditLimit  desc ".toList) =
    ["CreditLimit".toList, "desc".toList] := by decide

example : splitOnChar ',' ("CustomerName,Bogus".toList) =
    ["CustomerName".toList, "Bogus".toList] := by decide

example : pyStrip (" 'Berlin' ".toList) = "'Berlin'".toList := by decide

example : stripQuotes ("'Berlin'".toList) = "Berlin".toList := by decide

/-- Lexicographic `≤` on character lists: Python string comparison by code
point. -/
def charListLe : Str → Str → Bool
  | [], _ => true
  | _ :: _, [] => false
  | a :: as, b :: bs => if a = b then charListLe as bs else decide (a < b)

/-- Lexicographic `<` on character lists. -/
def charListLt : Str → Str → Bool
  | [], [] => false
  | [], _ :: _ => true
  | _ :: _, [] => false
  | a :: as, b :: bs => if a = b then charListLt as bs else decide (a < b)

/-- Lexicographic `≤` on lists of strings: Python list comparison for the
`Items` field. -/
def strListLe : List Str → List Str → Bool
  | [], _ => true
  | _ :: _, [] => false
  | a :: as, b :: bs => if a = b then strListLe as bs else charListLt a b

/-- Comparison class of a value: values of different classes cannot be
compared by Python's `<` (a `TypeError`, which `parse_orderby` catches),
except that ints and floats share a class. `vRecs` values (class 4) cannot be
compared at all. -/
def tagOf : Value → Nat
  | .scal (.sInt _) => 0
  | .scal (.sFloatInt _) => 0
  | .scal (.sStr _) => 1
  | .scal (.sDate _ _ _) => 2
  | .scal (.sStrList _) => 3
  | .vRecs _ => 4

/-- `≤` on values, following each field type's native Python order; on pairs
the program would raise `TypeError` for (different classes, or two `vRecs`)
the result is immaterial because `parse_orderby` only sorts when `sortable`
holds, and is fixed arbitrarily so that `valLe` is a total preorder. -/
def valLe (a b : Value) : Bool :=
  match a, b with
  | .scal (.sInt x), .scal (.sInt y) => decide (x ≤ y)
  | .scal (.sInt x), .scal (.sFloatInt y) => decide (x ≤ y)
  | .scal (.sFloatInt x), .scal (.sInt y) => decide (x ≤ y)
  | .scal (.sFloatInt x), .scal (.sFloatInt y) => decide (x ≤ y)
  | .scal (.sStr x), .scal (.sStr y) => charListLe x y
  | .scal (.sDate y1 m1 d1), .scal (.sDate y2 m2 d2) =>
    decide (y1 < y2 ∨ (y1 = y2 ∧ (m1 < m2 ∨ (m1 = m2 ∧ d1 ≤ d2))))
  | .scal (.sStrList x), .scal (.sStrList y) => strListLe x y
  | .vRecs _, .vRecs _ => true
  | a, b => decide (tagOf a ≤ tagOf b)

/-- Whether CPython's sort of elements with these keys performs no comparison
that raises `TypeError`: at most one element, or all keys in one comparable
class. -/
def sortable : List Value → Bool
  | [] => true
  | [_] => true
  | k :: rest => decide (tagOf k ≠ 4) && rest.all (fun v => tagOf v = tagOf k)

/-- Insert `x` into `s` before the first element `y` with `le x y`; with a
total preorder `le` this realises a stable sort (equal elements keep input
order), matching Python's `sorted`. -/
def insertOrd (le : α → α → Bool) (x : α) : List α → List α
  | [] => [x]
  | y :: ys => if le x y then x :: y :: ys else y :: insertOrd le x ys

/-- Stable insertion sort, the observable behavior of Python's stable
`sorted` for a total preorder. -/
def insSort (le : α → α → Bool) : List α → List α
  | [] => []
  | x :: xs => insertOrd le x (insSort le xs)

/-- The record comparison used by `sorted(data, key=..., reverse=desc)`:
compare the `field` values, flipped when `desc`. Both lookups are `some`
whenever `parse_orderby` reaches the sort. -/
def cmpRec (field : Str) (desc : Bool) (a b : Rec) : Bool :=
  match getField a field, getField b field with
  | some ka, some kb => if desc then valLe kb ka else valLe ka kb
  | _, _ => true

/-- `ODataQueryParser.parse_orderby` (src/main.py:153-167), for records whose
attributes are their dictionary fields (the pydantic models of this API).
`none` models the uncaught `IndexError` of `parts[0]` on an all-whitespace
spec. Inside the `try`: a missing attribute makes the key function raise
`AttributeError` (pydantic models have no `.get`), and an incomparable pair of
keys raises `TypeError`; both are caught, returning `data` unchanged. -/
def parse_orderby (spec : Str) (data : List Rec) : Option (List Rec) :=
  if spec = [] then some data
  else
    match pySplitWs spec with
    | [] => none
    | field :: rest =>
      let desc : Bool := match rest with
        | d :: _ => toLowerStr d = "desc".toList
        | [] => false
      match data.mapM (fun r => getField r field) with
      | none => some data
      | some ks =>
        if sortable ks then some (insSort (cmpRec field desc) data)
        else some data

example : parse_orderby ("  ".toList) [] = none := by decide

example : parse_orderby ("Bogus".toList) [[("A".toList, .scal (.sInt 1))]] =
    some [[("A".toList, .scal (.sInt 1))]] := by decide

example :
    parse_orderby ("A desc".toList)
        [[("A".toList, .scal (.sInt 1))], [("A".toList, .scal (.sInt 2))]] =
      some [[("A".toList, .scal (.sInt 2))], [("A".toList, .scal (.sInt 1))]] := by
  decide

/-- The token `" eq "` that `parse_filter` splits on. -/
def eqTok : Str := " eq ".toList

/-- The token `"contains("` whose presence selects the containment branch. -/
def containsTok : Str := "contains(".toList

/-- A word character of the regex class `\w` (ASCII range, as in all inputs
of interest). -/
def isWordChar (c : Char) : Bool := c.isAlphanum || c = '_'

/-- Attempt to match the pattern `contains\((\w+),\s*'([^']+)'\)` at the start
of `s`, returning the two groups. Because each quantified class is disjoint
from the character that must follow it, greedy matching with no backtracking
is exact here. -/
def matchContainsAt (s : Str) : Option (Str × Str) :=
  if containsTok.isPrefixOf s then
    let r1 := s.drop containsTok.length
    let field := r1.takeWhile isWordChar
    let r2 := r1.drop field.length
    if field = [] then none
    else
      match r2 with
      | ',' :: r3 =>
        match r3.dropWhile isPySpace with
        | '\'' :: r5 =>
          let value := r5.takeWhile (fun c => c ≠ '\'')
          let r6 := r5.drop value.length
          if value = [] then none
          else
            match r6 with
            | '\'' :: ')' :: _ => some (field, value)
            | _ => none
        | _ => none
      | _ => none
  else none

/-- `re.search(r"contains\((\w+),\s*'([^']+)'\)", s)`: try the pattern at each
position, leftmost first. -/
def regexContainsSearch : Str → Option (Str × Str)
  | [] => none
  | c :: rest =>
    match matchContainsAt (c :: rest) with
    | some r => some r
    | none => regexContainsSearch rest

/-- Case-insensitive equality `str(x).lower() == value.lower()`. -/
def lowerEqStr (a b : Str) : Bool := toLowerStr a = toLowerStr b

/-- Case-insensitive containment `value.lower() in str(x).lower()`. -/
def lowerContainsStr (a b : Str) : Bool := containsSubstr (toLowerStr a) (toLowerStr b)

/-- String form `str(v)` of a scalar, defined below for the value shapes the
repository stores (integral floats, midnight datetimes). -/
def natStr (n : Nat) : Str := (Nat.repr n).toList

/-- `str` of an `int`. -/
def intStr (i : Int) : Str :=
  if i < 0 then '-' :: natStr i.natAbs else natStr i.natAbs

/-- Zero-pad to two digits (datetime rendering). -/
def pad2 (n : Nat) : Str := if n < 10 then '0' :: natStr n else natStr n

/-- Zero-pad to four digits (datetime year rendering). -/
def pad4 (n : Nat) : Str :=
  if n < 10 then '0' :: '0' :: '0' :: natStr n
  else if n < 100 then '0' :: '0' :: natStr n
  else if n < 1000 then '0' :: natStr n
  else natStr n

/-- Python `repr` of a string without quote characters (single-quoted). -/
def quoteRepr (s : Str) : Str := '\'' :: (s ++ ['\''])

/-- Join rendered pieces with `", "`. -/
def joinComma : List Str → Str
  | [] => []
  | [x] => x
  | x :: xs => x ++ (", ".toList ++ joinComma xs)

/-- Python `str` of a list of strings (`repr` of the elements). -/
def strListRepr (l : List Str) : Str :=
  '[' :: (joinComma (l.map quoteRepr) ++ [']'])

/-- `str(v)` for a scalar at top level: `str(50000.0) = "50000.0"`,
`str(datetime(2023, 1, 15)) = "2023-01-15 00:00:00"`, lists render their
elements with `repr`. -/
def scalarStr : Scalar → Str
  | .sInt n => intStr n
  | .sStr s => s
  | .sFloatInt n => intStr n ++ ".0".toList
  | .sDate y m d =>
    pad4 y ++ ('-' :: pad2 m) ++ ('-' :: pad2 d) ++ " 00:00:00".toList
  | .sStrList l => strListRepr l

/-- `repr(v)` for a scalar inside a container. -/
def scalarRepr : Scalar → Str
  | .sInt n => intStr n
  | .sStr s => quoteRepr s
  | .sFloatInt n => intStr n ++ ".0".toList
  | .sDate y m d =>
    "datetime.datetime(".toList ++ natStr y ++ (", ".toList ++ natStr m)
      ++ (", ".toList ++ natStr d) ++ ", 0, 0)".toList
  | .sStrList l => strListRepr l

/-- Python `str` of a flat dictionary. -/
def flatRecRepr (d : FlatRec) : Str :=
  "\x7b".toList
    ++ joinComma (d.map (fun p => quoteRepr p.1 ++ (": ".toList ++ scalarRepr p.2)))
    ++ "\x7d".toList

/-- `str(v)` of any stored value. -/
def strValue : Value → Str
  | .scal v => scalarStr v
  | .vRecs l => '[' :: (joinComma (l.map flatRecRepr) ++ [']'])

/-- The per-item loop of `parse_filter` (src/main.py:110-135). For each item:
the equality branch splits the whole filter text on `" eq "` and unpacks into
exactly two names — `none` models the uncaught `ValueError` when the split
yields more than two pieces; the containment branch applies the regex search
and silently skips the item when it does not match; otherwise the item is
kept unconditionally. `toD` is `item.dict() if hasattr(item, 'dict') else
item`. -/
def filterGo (fs : Str) (toD : α → Rec) : List α → Option (List α)
  | [] => some []
  | item :: rest =>
    let d := toD item
    if containsSubstr fs eqTok then
      match splitOnSub eqTok fs with
      | [f0, v0] =>
        let field := pyStrip f0
        let value := stripQuotes (pyStrip v0)
        let keep : Bool :=
          match getField d field with
          | some fv => lowerEqStr (strValue fv) value
          | none => false
        Option.map (fun tl => if keep then item :: tl else tl) (filterGo fs toD rest)
      | _ => none
    else if containsSubstr fs containsTok then
      match regexContainsSearch fs with
      | some (field, value) =>
        let keep : Bool :=
          match getField d field with
          | some fv => lowerContainsStr (strValue fv) value
          | none => false
        Option.map (fun tl => if keep then item :: tl else tl) (filterGo fs toD rest)
      | none => Option.map id (filterGo fs toD rest)
    else Option.map (fun tl => item :: tl) (filterGo fs toD rest)

/-- `ODataQueryParser.parse_filter` (src/main.py:101-135). An absent or empty
filter text is the identity; `none` models an uncaught exception. -/
def parse_filter (fs : Str) (toD : α → Rec) (data : List α) : Option (List α) :=
  if fs = [] then some data else filterGo fs toD data

/-- The dict comprehension of the select stages: fold the requested fields,
keeping those present in `src`. -/
def selStep (src : Rec) (acc : Rec) (f : Str) : Rec :=
  match getField src f with
  | some v => dictInsert acc f v
  | none => acc

/-- `{field: item_dict.get(field) for field in fields if field in item_dict}`. -/
def buildDict (src : Rec) (fields : List Str) : Rec :=
  fields.foldl (selStep src) []

/-- `ODataQueryParser.parse_select` (src/main.py:137-151): empty select yields
the full dictionary of every record; otherwise comma-split, trim each name,
and project each record to the requested names that exist on it. -/
def parse_select (sel : Str) (toD : α → Rec) (data : List α) : List Rec :=
  if sel = [] then data.map toD
  else
    let fields := (splitOnChar ',' sel).map pyStrip
    data.map (fun item => buildDict (toD item) fields)

/-- Python `l[i:]` including negative-index semantics. -/
def pySliceFrom (i : Int) (l : List α) : List α :=
  if 0 ≤ i then l.drop i.toNat else l.drop (l.length + i).toNat

/-- Python `l[:i]` including negative-index semantics. -/
def pySliceTo (i : Int) (l : List α) : List α :=
  if 0 ≤ i then l.take i.toNat else l.take (l.length + i).toNat

/-- The pagination and count stage of `get_customers` (src/main.py:221-238)
and `get_orders`: snapshot the length of the filtered+ordered list, then
`if skip: data = data[skip:]`, then `if top: data = data[:top]` (a `None` or
falsy-zero value skips the step). Returns the page and the count snapshot. -/
def paginateCount (skip top : Option Int) (data : List Rec) : List Rec × Nat :=
  let total := data.length
  let d1 := match skip with
    | none => data
    | some n => if n = 0 then data else pySliceFrom n data
  let d2 := match top with
    | none => d1
    | some n => if n = 0 then d1 else pySliceTo n d1
  (d2, total)

example : parse_filter ("a eq b eq c".toList) (fun r : Rec => r) [[]] = none := by decide

example :
    parse_filter ("contains(".toList) (fun r : Rec => r)
      [[("A".toList, .scal (.sInt 1))]] = some [] := by decide

example :
    parse_filter ("contains(City, 'erl')".toList) (fun r : Rec => r)
      [[("City".toList, .scal (.sStr ("Berlin".toList)))],
       [("City".toList, .scal (.sStr ("Tokyo".toList)))]] =
    some [[("City".toList, .scal (.sStr ("Berlin".toList)))]] := by decide

example :
    parse_select ("CustomerName,Bogus".toList) (fun r : Rec => r)
      [[("CustomerID".toList, .scal (.sInt 1)),
        ("CustomerName".toList, .scal (.sStr ("Tech".toList)))]] =
    [[("CustomerName".toList, .scal (.sStr ("Tech".toList)))]] := by decide

example :
    paginateCount (some 1) (some 2) [[], [], [], []] = ([[], []], 4) := by decide

/-- Calendar date of a `datetime` at midnight (every datetime in the
repository is constructed as `datetime(y, m, d)`). -/
structure DateYMD where
  year : Nat
  month : Nat
  day : Nat
deriving DecidableEq

/-- The `Customer` pydantic model (src/main.py:21-30). `Status` carries the
enum's value string; `CreditLimit` the integer part of the integral float. -/
structure Customer where
  CustomerID : Int
  CustomerName : Str
  Email : Str
  Phone : Str
  City : Str
  Country : Str
  Status : Str
  CreatedDate : DateYMD
  CreditLimit : Int
deriving DecidableEq

/-- The `Order` pydantic model (src/main.py:32-38). -/
structure OrderRec where
  OrderID : Int
  CustomerID : Int
  OrderDate : DateYMD
  TotalAmount : Int
  Status : Str
  Items : List Str
deriving DecidableEq

/-- `Customer.dict()`: the pydantic field dictionary in declaration order. -/
def Customer.toDict (c : Customer) : Rec :=
  [("CustomerID".toList, .scal (.sInt c.CustomerID)),
   ("CustomerName".toList, .scal (.sStr c.CustomerName)),
   ("Email".toList, .scal (.sStr c.Email)),
   ("Phone".toList, .scal (.sStr c.Phone)),
   ("City".toList, .scal (.sStr c.City)),
   ("Country".toList, .scal (.sStr c.Country)),
   ("Status".toList, .scal (.sStr c.Status)),
   ("CreatedDate".toList, .scal (.sDate c.CreatedDate.year c.CreatedDate.month c.CreatedDate.day)),
   ("CreditLimit".toList, .scal (.sFloatInt c.CreditLimit))]

/-- `Order.dict()`: the pydantic field dictionary in declaration order. -/
def OrderRec.toDict (o : OrderRec) : FlatRec :=
  [("OrderID".toList, .sInt o.OrderID),
   ("CustomerID".toList, .sInt o.CustomerID),
   ("OrderDate".toList, .sDate o.OrderDate.year o.OrderDate.month o.OrderDate.day),
   ("TotalAmount".toList, .sFloatInt o.TotalAmount),
   ("Status".toList, .sStr o.Status),
   ("Items".toList, .sStrList o.Items)]

/-- Seed customer 1 (src/main.py:46-56). -/
def cust1 : Customer :=
  ⟨1, "Tech Solutions LLC".toList, "contact@techsolutions.com".toList,
   "+1-555-0123".toList, "New York".toList, "USA".toList, "Active".toList,
   ⟨2023, 1, 15⟩, 50000⟩

/-- Seed customer 2 (src/main.py:57-67). -/
def cust2 : Customer :=
  ⟨2, "Global Trading Co".toList, "info@globaltrading.com".toList,
   "+1-555-0456".toList, "Los Angeles".toList, "USA".toList, "Active".toList,
   ⟨2023, 3, 22⟩, 75000⟩

/-- Seed customer 3 (src/main.py:68-78). -/
def cust3 : Customer :=
  ⟨3, "European Systems".toList, "sales@eusystems.eu".toList,
   "+49-30-123456".toList, "Berlin".toList, "Germany".toList, "Inactive".toList,
   ⟨2023, 2, 10⟩, 30000⟩

/-- Seed customer 4 (src/main.py:79-89). -/
def cust4 : Customer :=
  ⟨4, "Asian Enterprises".toList, "contact@asianent.com".toList,
   "+81-3-1234567".toList, "Tokyo".toList, "Japan".toList, "Active".toList,
   ⟨2023, 4, 5⟩, 60000⟩

/-- `customers_data` at process start (src/main.py:45-90). -/
def seedCustomers : List Customer := [cust1, cust2, cust3, cust4]

/-- Seed order 1001 (src/main.py:93). -/
def ord1001 : OrderRec :=
  ⟨1001, 1, ⟨2024, 1, 10⟩, 15000, "Completed".toList,
   ["Laptop".toList, "Software License".toList]⟩

/-- Seed order 1002 (src/main.py:94). -/
def ord1002 : OrderRec :=
  ⟨1002, 2, ⟨2024, 1, 15⟩, 25000, "Processing".toList,
   ["Server".toList, "Network Equipment".toList]⟩

/-- Seed order 1003 (src/main.py:95). -/
def ord1003 : OrderRec :=
  ⟨1003, 1, ⟨2024, 2, 1⟩, 8000, "Shipped".toList,
   ["Tablets".toList, "Accessories".toList]⟩

/-- Seed order 1004 (src/main.py:96). -/
def ord1004 : OrderRec :=
  ⟨1004, 4, ⟨2024, 2, 10⟩, 35000, "Completed".toList,
   ["Enterprise Software".toList]⟩

/-- `orders_data` at process start (src/main.py:92-97). -/
def seedOrders : List OrderRec := [ord1001, ord1002, ord1003, ord1004]

/-- Client-visible failures raised by the CRUD handlers. -/
inductive ApiError where
  | duplicateKey
  | notFound
deriving DecidableEq

/-- `create_customer` (src/main.py:316-325) acting on the `customers_data`
store: the raised error (if any) and the store afterwards. -/
def create_customer (c : Customer) (s : List Customer) :
    Option ApiError × List Customer :=
  if s.any (fun x => x.CustomerID = c.CustomerID) then (some .duplicateKey, s)
  else (none, s ++ [c])

/-- The replacing loop of `update_customer`: replace the first record whose
`CustomerID` equals the path id, or report absence. -/
def replaceFirst (cid : Int) (c : Customer) : List Customer → Option (List Customer)
  | [] => none
  | x :: rest =>
    if x.CustomerID = cid then some (c :: rest)
    else Option.map (fun l => x :: l) (replaceFirst cid c rest)

/-- The removing loop of `delete_customer`: pop the first record whose
`CustomerID` equals the path id, or report absence. -/
def removeFirst (cid : Int) : List Customer → Option (List Customer)
  | [] => none
  | x :: rest =>
    if x.CustomerID = cid then some rest
    else Option.map (fun l => x :: l) (removeFirst cid rest)

/-- `update_customer` (src/main.py:327-336) acting on the store. The request
body `c` replaces the matched record wholesale — including its `CustomerID`. -/
def update_customer (cid : Int) (c : Customer) (s : List Customer) :
    Option ApiError × List Customer :=
  match replaceFirst cid c s with
  | some s' => (none, s')
  | none => (some .notFound, s)

/-- `delete_customer` (src/main.py:338-347) acting on the store. -/
def delete_customer (cid : Int) (s : List Customer) :
    Option ApiError × List Customer :=
  match removeFirst cid s with
  | some s' => (none, s')
  | none => (some .notFound, s)

/-- All `CustomerID`s in the store are pairwise distinct. -/
def idsUnique (s : List Customer) : Bool :=
  decide (s.map (fun c => c.CustomerID)).Nodup

/-- `get_customer_by_id` (src/main.py:242-266): find the customer, take its
full dictionary, attach the expanded orders when the expand text is truthy
and contains `"Orders"`, then — when the select text is truthy — project to
the comma-split, trimmed field names that exist on the result. `Except.error`
models the 404 `HTTPException`. -/
def get_customer_by_id (cid : Int) (sel expQ : Option Str)
    (customers : List Customer) (orders : List OrderRec) : Except Unit Rec :=
  match customers.find? (fun c => c.CustomerID = cid) with
  | none => .error ()
  | some c =>
    let result := c.toDict
    let result := match expQ with
      | some e =>
        if e ≠ [] && containsSubstr e ("Orders".toList) then
          dictInsert result ("Orders".toList)
            (.vRecs ((orders.filter (fun o => o.CustomerID = cid)).map OrderRec.toDict))
        else result
      | none => result
    match sel with
    | some s =>
      if s ≠ [] then .ok (buildDict result ((splitOnChar ',' s).map pyStrip))
      else .ok result
    | none => .ok result

example : (create_customer cust1 seedCustomers).1 = some .duplicateKey := by decide

example : idsUnique ((update_customer 1 { cust1 with CustomerID := 2 } seedCustomers).2) = false := by
  decide

example :
    get_customer_by_id 1 none (some ("Orders".toList)) seedCustomers seedOrders =
      .ok (Customer.toDict cust1
        ++ [("Orders".toList, .vRecs [OrderRec.toDict ord1001, OrderRec.toDict ord1003])]) := by
  rfl

lemma splitGo_ne_nil (sub : Str) (fuel : Nat) (s : Str) : splitGo sub fuel s ≠ [] := by
  cases fuel with
  | zero => simp [splitGo]
  | succ n => cases h : firstOcc sub s <;> simp [splitGo, h]

lemma splitGo_single (sub s : Str) (h : firstOcc sub s = none) (fuel : Nat) :
    splitGo sub fuel s = [s] := by
  cases fuel <;> simp [splitGo, h]

lemma firstOcc_eq_none (s sub : Str) (h : containsSubstr s sub = false) :
    firstOcc sub s = none := by
  unfold containsSubstr at h
  cases hf : firstOcc sub s with
  | none => rfl
  | some i => rw [hf] at h; simp at h

lemma splitOnSub_of_not_contains (sub s : Str) (h : containsSubstr s sub = false) :
    splitOnSub sub s = [s] := by
  unfold splitOnSub
  split
  · rfl
  · exact splitGo_single sub s (firstOcc_eq_none s sub h) s.length

lemma contains_of_split_len (sub s : Str) (h : 2 ≤ (splitOnSub sub s).length) :
    containsSubstr s sub = true := by
  cases hb : containsSubstr s sub with
  | false => rw [splitOnSub_of_not_contains sub s hb] at h; simp at h
  | true => rfl

lemma split_len_ge_two (sub s : Str) (hc : containsSubstr s sub = true)
    (hne : sub ≠ []) : 2 ≤ (splitOnSub sub s).length := by
  obtain ⟨i, hi⟩ : ∃ i, firstOcc sub s = some i := by
    unfold containsSubstr at hc
    exact Option.isSome_iff_exists.mp hc
  have hpre : sub.isPrefixOf (s.drop i) = true := by
    have h0 := hi
    unfold firstOcc at h0
    have h1 := List.find?_some h0
    simpa using h1
  have hlen : sub.length ≤ (s.drop i).length :=
    (List.isPrefixOf_iff_prefix.mp hpre).length_le
  have hsub1 : 1 ≤ sub.length := List.length_pos.mpr hne
  have hs1 : 1 ≤ s.length := by
    rw [List.length_drop] at hlen
    omega
  obtain ⟨m, hm⟩ : ∃ m, s.length = m + 1 := ⟨s.length - 1, by omega⟩
  unfold splitOnSub
  rw [if_neg hne, hm]
  have hstep : splitGo sub (m + 1) s =
      s.take i :: splitGo sub m (s.drop (i + sub.length)) := by
    simp [splitGo, hi]
  rw [hstep]
  have hpos : 0 < (splitGo sub m (s.drop (i + sub.length))).length :=
    List.length_pos.mpr (splitGo_ne_nil sub m (s.drop (i + sub.length)))
  simp only [List.length_cons]
  omega

lemma filterGo_isSome (fs : Str) (toD : α → Rec)
    (h : (splitOnSub eqTok fs).length ≤ 2) :
    ∀ data : List α, (filterGo fs toD data).isSome = true := by
  intro data
  induction data with
  | nil => simp [filterGo]
  | cons item rest ih =>
    simp only [filterGo]
    cases hc : containsSubstr fs eqTok with
    | true =>
      have h2 := split_len_ge_two eqTok fs hc (by decide)
      obtain ⟨a, b, hab⟩ : ∃ a b, splitOnSub eqTok fs = [a, b] := by
        cases hl : splitOnSub eqTok fs with
        | nil => rw [hl] at h2; simp at h2
        | cons a t =>
          cases t with
          | nil => rw [hl] at h2; simp at h2
          | cons b t2 =>
            cases t2 with
            | nil => exact ⟨a, b, rfl⟩
            | cons c t3 => rw [hl] at h; simp at h
      simp [hc, hab, ih]
    | false =>
      cases hc2 : containsSubstr fs containsTok with
      | true =>
        cases hre : regexContainsSearch fs with
        | some pr => simp [hc, hc2, hre, ih]
        | none => simp [hc, hc2, hre, ih]
      | false => simp [hc, hc2, ih]

lemma filterGo_none_of_three (fs : Str) (toD : α → Rec)
    (h3 : 3 ≤ (splitOnSub eqTok fs).length) (item : α) (rest : List α) :
    filterGo fs toD (item :: rest) = none := by
  have hc : containsSubstr fs eqTok = true :=
    contains_of_split_len eqTok fs (by omega)
  obtain ⟨a, b, c, t, habc⟩ : ∃ a b c t, splitOnSub eqTok fs = a :: b :: c :: t := by
    cases hl : splitOnSub eqTok fs with
    | nil => rw [hl] at h3; simp at h3
    | cons a t1 =>
      cases t1 with
      | nil => rw [hl] at h3; simp at h3
      | cons b t2 =>
        cases t2 with
        | nil => rw [hl] at h3; simp at h3
        | cons c t3 => exact ⟨a, b, c, t3, rfl⟩
  simp [filterGo, hc, habc]

/-- C1 counterexample: the filter text `"a eq b eq c"` contains the token
`" eq "` twice, so `filter_str.split(" eq ")` yields three pieces and the
two-name unpacking in `parse_filter` raises `ValueError` (modelled `none`) on
a non-empty record list — the request crashes rather than degrading to a
no-op. -/
theorem filter_crashes_on_double_eq :
    parse_filter ("a eq b eq c".toList) (fun r : Rec => r) [Customer.toDict cust1] =
      none := by
  decide

/-- C1 (amended): the `$filter` stage terminates normally on every record
list whenever the filter text contains at most one occurrence of `" eq "`
(the split yields at most two pieces); a text in which `" eq "` occurs two or
more times raises an unpacking error on every non-empty record list. -/
theorem filter_total_iff_single_eq (fs : Str) (data : List Rec) :
    ((splitOnSub eqTok fs).length ≤ 2 →
      (parse_filter fs (fun r => r) data).isSome = true)
    ∧ (3 ≤ (splitOnSub eqTok fs).length → data ≠ [] →
      parse_filter fs (fun r => r) data = none) := by
  constructor
  · intro h
    unfold parse_filter
    split
    · rfl
    · exact filterGo_isSome fs (fun r => r) h data
  · intro h3 hne
    have hfs : fs ≠ [] := by
      intro he
      rw [he] at h3
      revert h3
      decide
    unfold parse_filter
    rw [if_neg hfs]
    obtain ⟨item, rest, rfl⟩ : ∃ i r, data = i :: r := by
      cases data with
      | nil => exact absurd rfl hne
      | cons i r => exact ⟨i, r, rfl⟩
    exact filterGo_none_of_three fs (fun r => r) h3 item rest

/-- C1 witness: a well-formed filter text with a single `" eq "` terminates
normally on a concrete record list. -/
theorem filter_total_iff_single_eq_witness :
    (parse_filter ("Status eq 'Active'".toList) (fun r => r)
      [Customer.toDict cust1]).isSome = true :=
  (filter_total_iff_single_eq ("Status eq 'Active'".toList)
    [Customer.toDict cust1]).1 (by decide)

/-- C2 counterexample: the filter text `"contains("` is non-empty, is not an
equality filter, and does not fit the containment extraction pattern — yet
the stage drops every record (the containment branch appends an item only
when the regex matched) instead of retaining them all. -/
theorem contains_prefix_drops_all :
    parse_filter ("contains(".toList) (fun r : Rec => r) [Customer.toDict cust1] =
        some []
    ∧ parse_filter ("contains(".toList) (fun r : Rec => r) [Customer.toDict cust1] ≠
        some [Customer.toDict cust1] := by
  decide

/-- C2 (amended): for a non-empty filter text containing neither `" eq "` nor
the substring `"contains("`, the stage returns the record list unchanged; for
a text that contains `"contains("` but does not fit the extraction pattern,
the stage instead returns the empty list (every record is dropped). -/
theorem filter_fallback_behavior (fs : Str) (data : List Rec) (hne : fs ≠ []) :
    (containsSubstr fs eqTok = false → containsSubstr fs containsTok = false →
      parse_filter fs (fun r => r) data = some data)
    ∧ (containsSubstr fs eqTok = false → containsSubstr fs containsTok = true →
      regexContainsSearch fs = none →
      parse_filter fs (fun r => r) data = some []) := by
  constructor
  · intro h1 h2
    unfold parse_filter
    rw [if_neg hne]
    induction data with
    | nil => simp [filterGo]
    | cons item rest ih => simp [filterGo, h1, h2, ih]
  · intro h1 h2 h3
    unfold parse_filter
    rw [if_neg hne]
    induction data with
    | nil => simp [filterGo]
    | cons item rest ih => simp [filterGo, h1, h2, h3, ih]

/-- C2 witness: a filter text matching neither form and without
`"contains("` leaves a concrete record list unchanged. -/
theorem filter_fallback_behavior_witness :
    parse_filter ("hello".toList) (fun r => r) [Customer.toDict cust1] =
      some [Customer.toDict cust1] :=
  (filter_fallback_behavior ("hello".toList) [Customer.toDict cust1]
    (by decide)).1 (by decide) (by decide)

/-- The predicate of the equality filter: the record's field `F` exists and
its string form case-insensitively equals `V`. -/
def eqKeeps (F V : Str) (r : Rec) : Bool :=
  match getField r F with
  | some v => lowerEqStr (strValue v) V
  | none => false

lemma filterGo_eq_filter (fs F V : Str)
    (hsp : splitOnSub eqTok fs = [F, V])
    (hF : pyStrip F = F) (hV : stripQuotes (pyStrip V) = V) :
    ∀ data : List Rec, filterGo fs (fun r => r) data =
      some (data.filter (eqKeeps F V)) := by
  have hc : containsSubstr fs eqTok = true :=
    contains_of_split_len eqTok fs (by simp [hsp])
  intro data
  induction data with
  | nil => simp [filterGo]
  | cons item rest ih =>
    simp only [filterGo, hc, if_true, hsp]
    rw [hF, hV]
    rw [ih]
    simp only [Option.map_some', List.filter_cons]
    cases hk : eqKeeps F V item with
    | true =>
      unfold eqKeeps at hk
      simp [hk, eqKeeps]
    | false =>
      unfold eqKeeps at hk
      simp [hk, eqKeeps]

/-- C4: filtering a record list with the text `F eq V` — for a trimmed field
name `F` and a trimmed, unquoted value `V` forming a single-equality text —
returns exactly the order-preserving subsequence of records whose field `F`
exists with a string form case-insensitively equal to `V`; records lacking
`F` are excluded. -/
theorem eq_filter_exact (F V : Str) (data : List Rec)
    (hsp : splitOnSub eqTok (F ++ eqTok ++ V) = [F, V])
    (hF : pyStrip F = F) (hV : stripQuotes (pyStrip V) = V) :
    parse_filter (F ++ eqTok ++ V) (fun r => r) data =
      some (data.filter (eqKeeps F V)) := by
  have hne : (F ++ eqTok ++ V) ≠ [] := by simp [eqTok]
  unfold parse_filter
  rw [if_neg hne]
  exact filterGo_eq_filter (F ++ eqTok ++ V) F V hsp hF hV data

/-- C4 witness: `"City eq Berlin"` on a two-record list keeps exactly the
record whose `City` equals `"Berlin"` (case-insensitively), in order. -/
theorem eq_filter_exact_witness :
    parse_filter ("City".toList ++ eqTok ++ "Berlin".toList) (fun r => r)
        [Customer.toDict cust3, Customer.toDict cust1] =
      some [Customer.toDict cust3] := by
  have h := eq_filter_exact ("City".toList) ("Berlin".toList)
    [Customer.toDict cust3, Customer.toDict cust1]
    (by decide) (by decide) (by decide)
  rw [h]
  decide

/-- Modelled from the spec's words for comparison in C5: first drop the first
`skip` elements, then truncate to the first `top` elements, where a zero or
absent value means no-op. -/
def dropThenTake (skip top : Option Int) (data : List Rec) : List Rec :=
  let d := data.drop (skip.getD 0).toNat
  match top with
  | none => d
  | some t => if t = 0 then d else d.take t.toNat

/-- C5: for non-negative skip/top, the Paginate+Count stage returns the page
obtained by dropping the first `skip` elements and then truncating to the
first `top` elements (zero or absent meaning no-op), and the reported count
is the length of the incoming (filtered+ordered) list, independent of skip
and top; skip=0 and top=0 behave exactly like the absent option. -/
theorem paginate_count_spec (data : List Rec) (skip top : Option Int)
    (hs : ∀ n, skip = some n → 0 ≤ n) (ht : ∀ n, top = some n → 0 ≤ n) :
    (paginateCount skip top data).2 = data.length
    ∧ (paginateCount skip top data).1 = dropThenTake skip top data
    ∧ paginateCount (some 0) top data = paginateCount none top data
    ∧ paginateCount skip (some 0) data = paginateCount skip none data := by
  refine ⟨rfl, ?_, ?_, ?_⟩
  · unfold paginateCount dropThenTake pySliceFrom pySliceTo
    cases skip with
    | none =>
      cases top with
      | none => simp
      | some t =>
        have htn := ht t rfl
        by_cases h0 : t = 0 <;> simp [h0, htn]
    | some n =>
      have hn := hs n rfl
      cases top with
      | none =>
        by_cases h0 : n = 0 <;> simp [h0, hn]
      | some t =>
        have htn := ht t rfl
        by_cases h0 : n = 0 <;> by_cases h1 : t = 0 <;> simp [h0, h1, hn, htn]
  · unfold paginateCount
    simp
  · unfold paginateCount
    simp

/-- C5 witness: skip 1, top 2 on the four seed customer dictionaries. -/
theorem paginate_count_spec_witness :
    (paginateCount (some 1) (some 2) (seedCustomers.map Customer.toDict)).2 =
        (seedCustomers.map Customer.toDict).length
    ∧ (paginateCount (some 1) (some 2) (seedCustomers.map Customer.toDict)).1 =
        dropThenTake (some 1) (some 2) (seedCustomers.map Customer.toDict) := by
  have h := paginate_count_spec (seedCustomers.map Customer.toDict)
    (some 1) (some 2)
    (by intro n hn; injection hn with h0; omega)
    (by intro n hn; injection hn with h0; omega)
  exact ⟨h.1, h.2.1⟩

lemma charListLe_refl (s : Str) : charListLe s s = true := by
  induction s with
  | nil => rfl
  | cons c cs ih => simp [charListLe, ih]

lemma strListLe_refl (l : List Str) : strListLe l l = true := by
  induction l with
  | nil => rfl
  | cons a as ih => simp [strListLe, ih]

lemma valLe_refl (v : Value) : valLe v v = true := by
  cases v with
  | scal sc => cases sc <;> simp [valLe, charListLe_refl, strListLe_refl]
  | vRecs l => rfl

lemma cmpRec_false_key_ne (field : Str) (desc : Bool) (a b : Rec)
    (h : cmpRec field desc a b = false) :
    getField b field ≠ getField a field := by
  intro heq
  unfold cmpRec at h
  cases ha : getField a field with
  | none => rw [ha] at h; cases hb : getField b field <;> rw [hb] at h <;> simp at h
  | some ka =>
    cases hb : getField b field with
    | none => rw [ha, hb] at h; simp at h
    | some kb =>
      rw [ha, hb] at h
      rw [ha, hb] at heq
      obtain rfl : kb = ka := Option.some.inj heq
      cases desc <;> simp [valLe_refl] at h

lemma filter_insertOrd (le : Rec → Rec → Bool) (key : Rec → Option Value)
    (hle : ∀ a b, le a b = false → key b ≠ key a) (x : Rec) (v : Option Value) :
    ∀ s : List Rec,
      (insertOrd le x s).filter (fun r => decide (key r = v)) =
        if key x = v then x :: s.filter (fun r => decide (key r = v))
        else s.filter (fun r => decide (key r = v)) := by
  intro s
  induction s with
  | nil =>
    simp only [insertOrd, List.filter]
    by_cases hx : key x = v <;> simp [hx]
  | cons y ys ih =>
    simp only [insertOrd]
    cases hxy : le x y with
    | true =>
      simp only [List.filter_cons]
      by_cases hx : key x = v <;> by_cases hy : key y = v <;>
        simp [hx, hy, List.filter_cons]
    | false =>
      have hne := hle x y hxy
      simp only [List.filter_cons]
      by_cases hy : key y = v
      · have hx : ¬ key x = v := fun h => hne (hy.trans h.symm)
        simp [hy, hx, ih]
      · by_cases hx : key x = v <;> simp [hy, hx, ih]

lemma filter_insSort (le : Rec → Rec → Bool) (key : Rec → Option Value)
    (hle : ∀ a b, le a b = false → key b ≠ key a) (v : Option Value) :
    ∀ l : List Rec,
      (insSort le l).filter (fun r => decide (key r = v)) =
        l.filter (fun r => decide (key r = v)) := by
  intro l
  induction l with
  | nil => rfl
  | cons x xs ih =>
    simp only [insSort]
    rw [filter_insertOrd le key hle x v (insSort le xs)]
    by_cases hx : key x = v <;> simp [hx, ih, List.filter_cons]

/-- C6: when the orderby spec names a field absent from every record, the
stage does not raise — the `AttributeError` of the key function is caught and
the input list is returned unchanged; moreover every successful outcome of
the stage is stable: for every key value `v`, the records whose sort key is
`v` appear in the output in their input order (their subsequence is
unchanged), in both directions. -/
theorem orderby_failsoft_stable (spec field : Str) (rest : List Str)
    (data : List Rec) (hs : pySplitWs spec = field :: rest) :
    ((∀ r ∈ data, getField r field = none) → parse_orderby spec data = some data)
    ∧ (∀ (out : List Rec) (v : Option Value), parse_orderby spec data = some out →
        out.filter (fun r => decide (getField r field = v)) =
          data.filter (fun r => decide (getField r field = v))) := by
  have hspec : spec ≠ [] := by
    intro he
    rw [he] at hs
    have : pySplitWs [] = [] := by decide
    rw [this] at hs
    exact List.noConfusion hs
  constructor
  · intro hnone
    unfold parse_orderby
    rw [if_neg hspec, hs]
    cases data with
    | nil => rfl
    | cons r rs =>
      have hr := hnone r (by simp)
      dsimp only
      rw [List.mapM_cons, hr]
      rfl
  · intro out v hout
    unfold parse_orderby at hout
    rw [if_neg hspec, hs] at hout
    dsimp only at hout
    cases hm : data.mapM (fun r => getField r field) with
    | none =>
      rw [hm] at hout
      simp at hout
      rw [hout]
    | some ks =>
      rw [hm] at hout
      cases hsrt : sortable ks with
      | false =>
        simp [hsrt] at hout
        rw [hout]
      | true =>
        simp [hsrt] at hout
        rw [← hout]
        exact filter_insSort (cmpRec field _) (fun r => getField r field)
          (fun a b h => cmpRec_false_key_ne field _ a b h) v data

/-- C6 witness: ordering the one-record list by the unknown field `Bogus`
returns it unchanged without error. -/
theorem orderby_failsoft_stable_witness :
    parse_orderby ("Bogus".toList) [Customer.toDict cust1] =
      some [Customer.toDict cust1] :=
  (orderby_failsoft_stable ("Bogus".toList) ("Bogus".toList) []
    [Customer.toDict cust1] (by decide)).1 (by decide)

lemma getField_cons (k0 : Str) (v0 : Value) (rest : Rec) (k : Str) :
    getField ((k0, v0) :: rest) k = if k0 = k then some v0 else getField rest k := by
  unfold getField
  rw [List.find?_cons]
  by_cases h : k0 = k <;> simp [h]

lemma getField_dictInsert (d : Rec) (k : Str) (v : Value) (k' : Str) :
    getField (dictInsert d k v) k' = if k = k' then some v else getField d k' := by
  induction d with
  | nil =>
    simp only [dictInsert]
    rw [getField_cons]
  | cons p rest ih =>
    obtain ⟨k0, v0⟩ := p
    simp only [dictInsert]
    by_cases h0 : k0 = k
    · subst h0
      rw [if_pos rfl, getField_cons, getField_cons]
      by_cases h1 : k0 = k' <;> simp [h1]
    · rw [if_neg h0, getField_cons, getField_cons, ih]
      by_cases h1 : k0 = k'
      · subst h1
        rw [if_pos rfl, if_neg (fun h => h0 h.symm), if_pos rfl]
      · rw [if_neg h1, if_neg h1]

lemma getField_selFold (src : Rec) (fields : List Str) :
    ∀ (acc : Rec) (k : Str),
      getField (List.foldl (selStep src) acc fields) k =
        if k ∈ fields ∧ hasField src k = true then getField src k
        else getField acc k := by
  induction fields with
  | nil =>
    intro acc k
    simp
  | cons f fs ih =>
    intro acc k
    simp only [List.foldl_cons]
    rw [ih]
    by_cases hmem : k ∈ fs ∧ hasField src k = true
    · rw [if_pos hmem, if_pos ⟨List.mem_cons_of_mem f hmem.1, hmem.2⟩]
    · rw [if_neg hmem]
      unfold selStep
      by_cases hkf : k = f
      · subst hkf
        cases hsrc : getField src k with
        | some v =>
          rw [getField_dictInsert]
          rw [if_pos rfl, if_pos ⟨List.mem_cons_self k fs, by simp [hasField, hsrc]⟩]
        | none =>
          have : hasField src k = false := by simp [hasField, hsrc]
          rw [if_neg (fun hc => by rw [this] at hc; exact Bool.noConfusion hc.2)]
      · have hiff : (k ∈ f :: fs ∧ hasField src k = true) ↔
            (k ∈ fs ∧ hasField src k = true) := by
          constructor
          · rintro ⟨hm, hh⟩
            rcases List.mem_cons.mp hm with h | h
            · exact absurd h hkf
            · exact ⟨h, hh⟩
          · rintro ⟨hm, hh⟩
            exact ⟨List.mem_cons_of_mem f hm, hh⟩
        rw [if_neg (fun hc => hmem (hiff.mp hc))]
        cases hsrc : getField src f with
        | some v =>
          rw [getField_dictInsert, if_neg (fun h => hkf h.symm)]
        | none => rfl

lemma getField_buildDict (src : Rec) (fields : List Str) (k : Str) :
    getField (buildDict src fields) k =
      if k ∈ fields ∧ hasField src k = true then getField src k else none := by
  unfold buildDict
  rw [getField_selFold]
  rfl

/-- C7: for every record and non-empty select list, the emitted mapping binds
exactly the comma-split, trimmed requested names that exist on the record, to
the record's own values; unknown requested names are silently dropped and no
field absent from the record is introduced. -/
theorem select_projects_existing (sel : Str) (data : List Rec) (hne : sel ≠ []) :
    List.Forall₂
      (fun r d => ∀ k, getField d k =
        if k ∈ (splitOnChar ',' sel).map pyStrip ∧ hasField r k = true
        then getField r k else none)
      data (parse_select sel (fun r => r) data) := by
  unfold parse_select
  rw [if_neg hne]
  induction data with
  | nil => simp
  | cons r rs ih =>
    simp only [List.map_cons]
    exact List.Forall₂.cons (fun k => getField_buildDict r _ k) ih

/-- C7 witness: `select("CustomerName,Bogus")` on the first seed customer
yields a mapping whose only key is `CustomerName`, bound to the record's own
value. -/
theorem select_projects_existing_witness :
    List.Forall₂
      (fun r d => ∀ k, getField d k =
        if k ∈ (splitOnChar ',' ("CustomerName,Bogus".toList)).map pyStrip ∧
            hasField r k = true
        then getField r k else none)
      [Customer.toDict cust1]
      (parse_select ("CustomerName,Bogus".toList) (fun r => r)
        [Customer.toDict cust1]) :=
  select_projects_existing ("CustomerName,Bogus".toList) [Customer.toDict cust1]
    (by decide)

example :
    parse_select ("CustomerName,Bogus".toList) (fun r => r) [Customer.toDict cust1] =
      [[("CustomerName".toList, .scal (.sStr ("Tech Solutions LLC".toList)))]] := by
  decide

lemma replaceFirst_eq_none (cid : Int) (c : Customer) :
    ∀ s : List Customer,
      replaceFirst cid c s = none ↔ ∀ x ∈ s, ¬ x.CustomerID = cid := by
  intro s
  induction s with
  | nil => simp [replaceFirst]
  | cons x rest ih =>
    by_cases hx : x.CustomerID = cid <;> simp [replaceFirst, hx, ih]

lemma removeFirst_eq_none (cid : Int) :
    ∀ s : List Customer,
      removeFirst cid s = none ↔ ∀ x ∈ s, ¬ x.CustomerID = cid := by
  intro s
  induction s with
  | nil => simp [removeFirst]
  | cons x rest ih =>
    by_cases hx : x.CustomerID = cid <;> simp [removeFirst, hx, ih]

/-- C8: `create_customer` fails with `DuplicateKey` exactly when a stored
record already carries the body's `CustomerID`, and otherwise appends the
record; `update_customer` and `delete_customer` fail with `NotFound` exactly
when no stored record carries the path id; every failure leaves the store
unchanged. -/
theorem crud_error_conditions (s : List Customer) (c : Customer) (cid : Int) :
    ((create_customer c s).1 = some .duplicateKey ↔
      ∃ x ∈ s, x.CustomerID = c.CustomerID)
    ∧ ((create_customer c s).1 = none → (create_customer c s).2 = s ++ [c])
    ∧ ((create_customer c s).1 ≠ none → (create_customer c s).2 = s)
    ∧ ((update_customer cid c s).1 = some .notFound ↔
      ¬ ∃ x ∈ s, x.CustomerID = cid)
    ∧ ((update_customer cid c s).1 = some .notFound →
      (update_customer cid c s).2 = s)
    ∧ ((delete_customer cid s).1 = some .notFound ↔ ¬ ∃ x ∈ s, x.CustomerID = cid)
    ∧ ((delete_customer cid s).1 = some .notFound → (delete_customer cid s).2 = s) := by
  refine ⟨?_, ?_, ?_, ?_, ?_, ?_, ?_⟩
  · unfold create_customer
    by_cases h : s.any (fun x => x.CustomerID = c.CustomerID) = true
    · simp only [h, if_true]
      simp only [List.any_eq_true, decide_eq_true_eq] at h
      simp [h]
    · rw [if_neg h]
      simp only [List.any_eq_true, decide_eq_true_eq] at h
      simp [h]
  · unfold create_customer
    by_cases h : s.any (fun x => x.CustomerID = c.CustomerID) = true <;> simp [h]
  · unfold create_customer
    by_cases h : s.any (fun x => x.CustomerID = c.CustomerID) = true <;> simp [h]
  · unfold update_customer
    cases hrf : replaceFirst cid c s with
    | none =>
      have hall := (replaceFirst_eq_none cid c s).mp hrf
      simp
      exact hall
    | some s' =>
      have : ¬ (replaceFirst cid c s = none) := by simp [hrf]
      rw [replaceFirst_eq_none] at this
      push_neg at this
      simp only [Option.some.injEq]
      constructor
      · intro h
        exact absurd h (by simp)
      · intro h
        exact absurd this (by simpa using h)
  · unfold update_customer
    cases hrf : replaceFirst cid c s with
    | none => simp
    | some s' => simp
  · unfold delete_customer
    cases hrf : removeFirst cid s with
    | none =>
      have hall := (removeFirst_eq_none cid s).mp hrf
      simp
      exact hall
    | some s' =>
      have : ¬ (removeFirst cid s = none) := by simp [hrf]
      rw [removeFirst_eq_none] at this
      push_neg at this
      simp only [Option.some.injEq]
      constructor
      · intro h
        exact absurd h (by simp)
      · intro h
        exact absurd this (by simpa using h)
  · unfold delete_customer
    cases hrf : removeFirst cid s with
    | none => simp
    | some s' => simp

/-- C8 witness: creating the already-stored seed customer 1 raises
`DuplicateKey` on the seed store. -/
theorem crud_error_conditions_witness :
    (create_customer cust1 seedCustomers).1 = some .duplicateKey :=
  (crud_error_conditions seedCustomers cust1 0).1.mpr ⟨cust1, by decide, rfl⟩

/-- C3: evaluating the code at the failing input. The seed store has unique
`CustomerID`s and `update_customer` succeeds, yet replacing path id 1 with a
body that carries `CustomerID = 2` leaves the store with two records whose
`CustomerID` is 2 — the uniqueness invariant claimed by the spec is broken
because `update_customer` never compares the body id with the path id. -/
theorem update_breaks_id_uniqueness :
    idsUnique seedCustomers = true
    ∧ (update_customer 1 { cust1 with CustomerID := 2 } seedCustomers).1 = none
    ∧ idsUnique
        ((update_customer 1 { cust1 with CustomerID := 2 } seedCustomers).2) =
        false := by
  decide

/-- C9: expanding Customer id 1 with directive `"Orders"` on the seed data
attaches under the key `Orders` exactly the orders whose `CustomerID` is 1 —
the fully projected dictionaries of OrderID 1001 and 1003, in insertion
order; and any directive text not containing `"Orders"` performs no
expansion and is not an error. -/
theorem expand_orders_seed :
    (get_customer_by_id 1 none (some ("Orders".toList)) seedCustomers seedOrders =
      .ok [("CustomerID".toList, .scal (.sInt 1)),
           ("CustomerName".toList, .scal (.sStr ("Tech Solutions LLC".toList))),
           ("Email".toList, .scal (.sStr ("contact@techsolutions.com".toList))),
           ("Phone".toList, .scal (.sStr ("+1-555-0123".toList))),
           ("City".toList, .scal (.sStr ("New York".toList))),
           ("Country".toList, .scal (.sStr ("USA".toList))),
           ("Status".toList, .scal (.sStr ("Active".toList))),
           ("CreatedDate".toList, .scal (.sDate 2023 1 15)),
           ("CreditLimit".toList, .scal (.sFloatInt 50000)),
           ("Orders".toList, .vRecs
             [[("OrderID".toList, .sInt 1001),
               ("CustomerID".toList, .sInt 1),
               ("OrderDate".toList, .sDate 2024 1 10),
               ("TotalAmount".toList, .sFloatInt 15000),
               ("Status".toList, .sStr ("Completed".toList)),
               ("Items".toList, .sStrList
                 ["Laptop".toList, "Software License".toList])],
              [("OrderID".toList, .sInt 1003),
               ("CustomerID".toList, .sInt 1),
               ("OrderDate".toList, .sDate 2024 2 1),
               ("TotalAmount".toList, .sFloatInt 8000),
               ("Status".toList, .sStr ("Shipped".toList)),
               ("Items".toList, .sStrList
                 ["Tablets".toList, "Accessories".toList])]])])
    ∧ (∀ e : Str, containsSubstr e ("Orders".toList) = false →
        get_customer_by_id 1 none (some e) seedCustomers seedOrders =
          .ok (Customer.toDict cust1)) := by
  constructor
  · rfl
  · intro e he
    unfold get_customer_by_id
    have hf : seedCustomers.find? (fun c => c.CustomerID = 1) = some cust1 := by
      decide
    rw [hf]
    dsimp only
    have hcond : (decide (e ≠ []) && containsSubstr e ("Orders".toList)) = false := by
      rw [he, Bool.and_false]
    rw [if_neg (by rw [hcond]; exact Bool.false_ne_true)]

/-- C9 witness: the directive `"Foo"` does not contain `"Orders"`, so the
lookup succeeds with the plain customer dictionary. -/
theorem expand_orders_seed_witness :
    get_customer_by_id 1 none (some ("Foo".toList)) seedCustomers seedOrders =
      .ok (Customer.toDict cust1) :=
  expand_orders_seed.2 ("Foo".toList) (by decide)

/-- C10: in `get_customer_by_id`, selection is applied after expansion — for
any store, any found customer, a truthy expand text containing `"Orders"`,
and a non-empty select list whose trimmed names do not include `"Orders"`,
the returned mapping has no `Orders` key: the projection silently discards
the expanded child records. -/
theorem select_discards_expansion (cid : Int) (customers : List Customer)
    (orders : List OrderRec) (sel e : Str) (c : Customer) (r : Rec)
    (hfind : customers.find? (fun x => x.CustomerID = cid) = some c)
    (hsel : sel ≠ [])
    (hords : ("Orders".toList) ∉ (splitOnChar ',' sel).map pyStrip)
    (he : e ≠ []) (hcont : containsSubstr e ("Orders".toList) = true)
    (hok : get_customer_by_id cid (some sel) (some e) customers orders = .ok r) :
    hasField r ("Orders".toList) = false := by
  unfold get_customer_by_id at hok
  rw [hfind] at hok
  dsimp only at hok
  have hcondE : (decide (e ≠ []) && containsSubstr e ("Orders".toList)) = true := by
    rw [hcont, Bool.and_true]
    exact decide_eq_true he
  rw [if_pos hcondE, if_pos hsel] at hok
  have hr : buildDict
      (dictInsert c.toDict ("Orders".toList)
        (.vRecs ((orders.filter (fun o => o.CustomerID = cid)).map OrderRec.toDict)))
      ((splitOnChar ',' sel).map pyStrip) = r := by
    injection hok
  rw [← hr]
  unfold hasField
  rw [getField_buildDict]
  rw [if_neg (fun hc => hords hc.1)]
  rfl

/-- C10 witness: customer 1 with `$expand=Orders` and `$select=CustomerName`
returns a mapping without an `Orders` key. -/
theorem select_discards_expansion_witness :
    hasField
      [("CustomerName".toList, Value.scal (.sStr ("Tech Solutions LLC".toList)))]
      ("Orders".toList) = false :=
  select_discards_expansion 1 seedCustomers seedOrders ("CustomerName".toList)
    ("Orders".toList) cust1
    [("CustomerName".toList, Value.scal (.sStr ("Tech Solutions LLC".toList)))]
    (by decide) (by decide) (by decide) (by decide) (by decide) (by rfl)
